import Mathlib

/-!
A shallow embedding of the Haar-like feature module of this repository
(src/skimage/feature/haar.py) and proofs about it.

The Python file drives two compiled helpers, haar_like_feature_coord_wrapper
and haar_like_feature_wrapper, whose Cython source (_haar.pyx) is not part of
src/.  Those two are modelled below (doc comments starting `Modelled from the
spec:`): the per-topology enumeration loop and the signed integral-image
evaluation.  Where the worked doctest outputs inside
src/skimage/feature/haar.py pin the behaviour of the missing code (the exact
42-value output of evaluating `type-3-x` over a 5 × 5 window of ones, the
63-value subset output, and the single `type-4` feature of a 2 × 2 window),
the model follows the doctests; theorems at the end of this file check the
model against those doctest vectors, value for value.  Everything else
(validation, request handling, the shape check, and the group-and-scatter
reordering of the subset mode) is translated directly from the Python in
src/.
-/

/-- An axis-aligned rectangle given by an inclusive top-left corner (r0, c0)
and an inclusive bottom-right corner (r1, c1), in window-local coordinates. -/
structure Rect where
  r0 : Nat
  c0 : Nat
  r1 : Nat
  c1 : Nat
deriving DecidableEq

instance : Inhabited Rect := ⟨⟨0, 0, 0, 0⟩⟩

/-- A Feature is an ordered sequence of rectangles. -/
abbrev Feature := List Rect

/-- The closed, ordered tuple of the five topology identifiers
(FEATURE_TYPE in src/skimage/feature/haar.py). -/
def FEATURE_TYPE : List String :=
  ["type-2-x", "type-2-y", "type-3-x", "type-3-y", "type-4"]

/-- A topology request: unspecified (None), a single name, or a list of
names. -/
inductive FeatureTypeArg where
  | unspecified : FeatureTypeArg
  | single : String → FeatureTypeArg
  | list : List String → FeatureTypeArg
deriving DecidableEq

/-- The error outcomes of the module.  invalidTopology carries the offending
token and the valid set; emptyUnpack is the ValueError Python raises when
zip is applied to an empty list of groups (subset mode with no recognized
label); emptyConcat is the ValueError numpy's hstack raises when asked to
concatenate an empty list of arrays (full mode over a window generating no
features); indexOutOfBounds is the numpy IndexError raised by fancy-index
assignment with an out-of-range index. -/
inductive HaarError where
  | invalidTopology : String → List String → HaarError
  | shapeMismatch : HaarError
  | windowOutOfBounds : HaarError
  | emptyUnpack : HaarError
  | emptyConcat : HaarError
  | indexOutOfBounds : HaarError
deriving DecidableEq

/-- First entry of a request list that is not a canonical identifier: the
validation loop in src raises at the first unknown name. -/
def firstUnknown : List String → Option String
  | [] => Option.none
  | t :: ts => if t ∈ FEATURE_TYPE then firstUnknown ts else some t

/-- _validate_feature_type from src/skimage/feature/haar.py: None means all
five types in canonical order; a single string is wrapped in a singleton
list; every listed name must be one of FEATURE_TYPE, otherwise a ValueError
carrying the offending token and the valid set is raised. -/
def validate_feature_type : FeatureTypeArg → Except HaarError (List String)
  | .unspecified => .ok FEATURE_TYPE
  | .single s =>
    match firstUnknown [s] with
    | some t => .error (.invalidTopology t FEATURE_TYPE)
    | Option.none => .ok [s]
  | .list l =>
    match firstUnknown l with
    | some t => .error (.invalidTopology t FEATURE_TYPE)
    | Option.none => .ok l

/-- Modelled from the spec: one loop body of the coordinate generator
(haar_like_feature_coord_wrapper, whose Cython source _haar.pyx is not under
src/).  For scan position (y, x) and per-rectangle extents (dy, dx) it yields
the feature of the given topology when it fits inside the width × height
window: two or three equal rectangles side by side along columns (type-2-x,
type-3-x) or along rows (type-2-y, type-3-y), or a 2 × 2 grid of equal
quadrants listed clockwise from the top-left (type-4), exactly as the worked
doctest outputs in src/skimage/feature/haar.py pin it (the spec's §4.2
instead describes arbitrary split points; the doctest values admit only the
equal-size subdivisions modelled here). -/
def featOfParams (t : String) (w h y x dy dx : Nat) : Option Feature :=
  if t = "type-2-x" then
    if y + dy ≤ h ∧ x + 2 * dx ≤ w then
      some [⟨y, x, y + dy - 1, x + dx - 1⟩,
            ⟨y, x + dx, y + dy - 1, x + 2 * dx - 1⟩]
    else Option.none
  else if t = "type-2-y" then
    if y + 2 * dy ≤ h ∧ x + dx ≤ w then
      some [⟨y, x, y + dy - 1, x + dx - 1⟩,
            ⟨y + dy, x, y + 2 * dy - 1, x + dx - 1⟩]
    else Option.none
  else if t = "type-3-x" then
    if y + dy ≤ h ∧ x + 3 * dx ≤ w then
      some [⟨y, x, y + dy - 1, x + dx - 1⟩,
            ⟨y, x + dx, y + dy - 1, x + 2 * dx - 1⟩,
            ⟨y, x + 2 * dx, y + dy - 1, x + 3 * dx - 1⟩]
    else Option.none
  else if t = "type-3-y" then
    if y + 3 * dy ≤ h ∧ x + dx ≤ w then
      some [⟨y, x, y + dy - 1, x + dx - 1⟩,
            ⟨y + dy, x, y + 2 * dy - 1, x + dx - 1⟩,
            ⟨y + 2 * dy, x, y + 3 * dy - 1, x + dx - 1⟩]
    else Option.none
  else if t = "type-4" then
    if y + 2 * dy ≤ h ∧ x + 2 * dx ≤ w then
      some [⟨y, x, y + dy - 1, x + dx - 1⟩,
            ⟨y, x + dx, y + dy - 1, x + 2 * dx - 1⟩,
            ⟨y + dy, x + dx, y + 2 * dy - 1, x + 2 * dx - 1⟩,
            ⟨y + dy, x, y + 2 * dy - 1, x + dx - 1⟩]
    else Option.none
  else Option.none

/-- Modelled from the spec: the scan order of the generator loops — top-left
row y, then column x, then per-rectangle height dy ∈ [1, height-1], then
per-rectangle width dx ∈ [1, width-1] — as pinned by the doctest value
sequences in src/skimage/feature/haar.py. -/
def windowParams (w h : Nat) : List (Nat × Nat × Nat × Nat) :=
  (List.range h) ×ˢ
    ((List.range w) ×ˢ ((List.range' 1 (h - 1)) ×ˢ (List.range' 1 (w - 1))))

/-- Modelled from the spec: all features of one topology for a window, in
scan order (the coordinate output of haar_like_feature_coord_wrapper). -/
def coordsOfType (w h : Nat) (t : String) : List Feature :=
  (windowParams w h).filterMap fun q =>
    featOfParams t w h q.1 q.2.1 q.2.2.1 q.2.2.2

/-- haar_like_feature_coord from src/skimage/feature/haar.py: validate the
request, then concatenate per-topology coordinates and the aligned type
labels in request order. -/
def haar_like_feature_coord (w h : Nat) (arg : FeatureTypeArg) :
    Except HaarError (List Feature × List String) :=
  match validate_feature_type arg with
  | .error e => .error e
  | .ok ts =>
    .ok (ts.flatMap (coordsOfType w h),
         ts.flatMap fun t => (coordsOfType w h t).map fun _ => t)

/-- A caller-supplied integral image: dimensions plus a value table.
ii.val r c is the sum of all source pixels with row ≤ r and column ≤ c. -/
structure IntegralImage where
  rows : Nat
  cols : Nat
  val : Nat → Nat → Int

/-- Modelled from the spec: the O(1) rectangle sum over the integral image by
the standard 4-point inclusion-exclusion identity (spec §4.3). -/
def rectSum (ii : IntegralImage) (r0 c0 r1 c1 : Nat) : Int :=
  ii.val r1 c1
    - (if 0 < r0 then ii.val (r0 - 1) c1 else 0)
    - (if 0 < c0 then ii.val r1 (c0 - 1) else 0)
    + (if 0 < r0 ∧ 0 < c0 then ii.val (r0 - 1) (c0 - 1) else 0)

/-- Rectangle sum of a window-local rectangle offset by the window's
top-left corner (r, c). -/
def rectSumAt (ii : IntegralImage) (r c : Nat) (rect : Rect) : Int :=
  rectSum ii (r + rect.r0) (c + rect.c0) (r + rect.r1) (c + rect.c1)

/-- Modelled from the spec: the per-feature accumulation loop of the Cython
evaluator (haar_like_feature_wrapper, absent from src/): the rectangle at
0-based index i is subtracted when i is even and added when i is odd — the
same alternation the drawing loop of draw_haar_like_feature in src applies,
and the one the doctest values confirm. -/
def evalRects (ii : IntegralImage) (r c : Nat) : Nat → List Rect → Int
  | _, [] => 0
  | i, rect :: rest =>
    (if i % 2 = 1 then rectSumAt ii r c rect else -rectSumAt ii r c rect)
      + evalRects ii r c (i + 1) rest

/-- The signed value of one feature over the integral image, for the window
with top-left offset (r, c). -/
def featureValue (ii : IntegralImage) (r c : Nat) (f : Feature) : Int :=
  evalRects ii r c 0 f

/-- Modelled from the spec: the window-fits-inside-the-integral-image check
of §4.3 (the Cython evaluator core is absent from src/). -/
def windowFits (ii : IntegralImage) (r c w h : Nat) : Prop :=
  r + h ≤ ii.rows ∧ c + w ≤ ii.cols

instance (ii : IntegralImage) (r c w h : Nat) :
    Decidable (windowFits ii r c w h) := by
  unfold windowFits; infer_instance

/-- Full-recompute mode of haar_like_feature (the feature_coord-is-None
branch, src lines 191-197): validate the request, then per requested
topology generate coordinates and evaluate every feature, concatenating in
request order via np.hstack over the chained per-feature values — which
raises ValueError when that chained list is empty (a window generating no
features); the window bounds check is modelled from the spec. -/
def haar_like_feature_full (ii : IntegralImage) (r c w h : Nat)
    (arg : FeatureTypeArg) : Except HaarError (List Int) :=
  match validate_feature_type arg with
  | .error e => .error e
  | .ok ts =>
    if windowFits ii r c w h then
      if (ts.flatMap fun t =>
          (coordsOfType w h t).map (featureValue ii r c)).isEmpty then
        .error .emptyConcat
      else
        .ok (ts.flatMap fun t =>
          (coordsOfType w h t).map (featureValue ii r c))
    else .error .windowOutOfBounds

/-- Sequential scatter, numpy's haar_feature[haar_feature_idx] = values:
write values[j] at position idx[j] of the base array; an index past the end
of the base raises IndexError (returns none). -/
def scatter : List Int → List Nat → List Int → Option (List Int)
  | base, [], [] => some base
  | base, i :: is, v :: vs =>
    if i < base.length then scatter (base.set i v) is vs else Option.none
  | _, _ :: _, [] => Option.none
  | _, [], _ :: _ => Option.none

/-- The per-type groups of the subset branch: the enumerated inputs filtered
by type label, one group per FEATURE_TYPE entry in canonical order, empty
groups dropped (the `if np.count_nonzero(mask)` guard in src). -/
def subsetGroups (coords : List Feature) (types : List String) :
    List (List (Nat × Feature × String)) :=
  (FEATURE_TYPE.map fun t =>
      (coords.zip types).enum.filter fun pr => pr.2.2 == t).filter
    fun g => !g.isEmpty

/-- The concatenation of the non-empty per-type groups, in canonical type
order: the source of both haar_feature_idx and haar_feature in src. -/
def subsetFlat (coords : List Feature) (types : List String) :
    List (Nat × Feature × String) :=
  (subsetGroups coords types).flatMap id

/-- The grouping-and-scatter body of haar_like_feature's subset branch
(src/skimage/feature/haar.py lines 203-215): fail like Python's zip when
every group is empty, otherwise take the concatenated original indices and
evaluated values and scatter the values back at the original indices over
the concatenated value buffer (haar_feature[haar_feature_idx] =
haar_feature.copy()). -/
def subsetCore (ii : IntegralImage) (r c : Nat)
    (coords : List Feature) (types : List String) :
    Except HaarError (List Int) :=
  if (subsetGroups coords types).isEmpty then .error .emptyUnpack
  else
    match scatter
        ((subsetFlat coords types).map fun pr => featureValue ii r c pr.2.1)
        ((subsetFlat coords types).map fun pr => pr.1)
        ((subsetFlat coords types).map fun pr => featureValue ii r c pr.2.1) with
    | some out => .ok out
    | Option.none => .error .indexOutOfBounds

/-- Subset mode of haar_like_feature (the feature_coord-supplied branch):
the length check of src lines 199-201, the spec-modelled window bounds
check, then the group-evaluate-scatter body. -/
def haar_like_feature_subset (ii : IntegralImage) (r c w h : Nat)
    (coords : List Feature) (types : List String) :
    Except HaarError (List Int) :=
  if coords.length ≠ types.length then .error .shapeMismatch
  else if windowFits ii r c w h then subsetCore ii r c coords types
  else .error .windowOutOfBounds

/-- Every other element of a list, numpy's l[::2] (used by the subset
doctest of src/skimage/feature/haar.py). -/
def everyOther (l : List α) : List α :=
  (l.enum.filter fun p => p.1 % 2 == 0).map fun p => p.2

/-- The TwoRectX enumeration exactly as the spec's §4.2 words it: every
top-left (r0, c0), every total width tw ≥ 2 with c0 + tw - 1 < width, every
height th ≥ 1 with r0 + th - 1 < height, and every column split point csplit
with c0 < csplit ≤ c0 + tw - 1, yielding the two rectangles
[rect(r0, c0 .. r0+th-1, csplit-1), rect(r0, csplit .. r0+th-1, c0+tw-1)].
This is the claimed enumeration, kept separate so that it can be compared
with the generator modelled from the doctests. -/
def twoRectXSpec (width height : Nat) : List Feature :=
  (List.range height).flatMap fun r0 =>
  (List.range width).flatMap fun c0 =>
  (List.range' 2 (width - 1)).flatMap fun tw =>
  (List.range' 1 height).flatMap fun th =>
  (List.range' (c0 + 1) (tw - 1)).filterMap fun csplit =>
    if c0 + tw ≤ width ∧ r0 + th ≤ height then
      some [⟨r0, c0, r0 + th - 1, csplit - 1⟩,
            ⟨r0, csplit, r0 + th - 1, c0 + tw - 1⟩]
    else Option.none

/-- The integral image of the 5 × 5 all-ones image used by the doctests of
haar_like_feature in src. -/
def onesII : IntegralImage :=
  ⟨5, 5, fun r c => ((r + 1 : Nat) * (c + 1) : Nat)⟩

/-! ### Characterization of the generated coordinate lists -/

theorem mem_windowParams {w h : Nat} {q : Nat × Nat × Nat × Nat} :
    q ∈ windowParams w h ↔
      q.1 < h ∧ q.2.1 < w ∧ (1 ≤ q.2.2.1 ∧ q.2.2.1 + 1 ≤ h) ∧
        (1 ≤ q.2.2.2 ∧ q.2.2.2 + 1 ≤ w) := by
  obtain ⟨y, x, dy, dx⟩ := q
  simp only [windowParams, List.mem_product, List.mem_range, List.mem_range'_1]
  omega

theorem windowParams_mem {w h y x dy dx : Nat} (h1 : y < h) (h2 : x < w)
    (h3 : 1 ≤ dy) (h4 : dy + 1 ≤ h) (h5 : 1 ≤ dx) (h6 : dx + 1 ≤ w) :
    (y, x, dy, dx) ∈ windowParams w h := by
  simp only [windowParams, List.mem_product, List.mem_range, List.mem_range'_1]
  omega

theorem featOfParams_2x (w h y x dy dx : Nat) :
    featOfParams "type-2-x" w h y x dy dx =
      if y + dy ≤ h ∧ x + 2 * dx ≤ w then
        some [⟨y, x, y + dy - 1, x + dx - 1⟩,
              ⟨y, x + dx, y + dy - 1, x + 2 * dx - 1⟩]
      else Option.none := rfl

theorem featOfParams_2y (w h y x dy dx : Nat) :
    featOfParams "type-2-y" w h y x dy dx =
      if y + 2 * dy ≤ h ∧ x + dx ≤ w then
        some [⟨y, x, y + dy - 1, x + dx - 1⟩,
              ⟨y + dy, x, y + 2 * dy - 1, x + dx - 1⟩]
      else Option.none := rfl

theorem featOfParams_3x (w h y x dy dx : Nat) :
    featOfParams "type-3-x" w h y x dy dx =
      if y + dy ≤ h ∧ x + 3 * dx ≤ w then
        some [⟨y, x, y + dy - 1, x + dx - 1⟩,
              ⟨y, x + dx, y + dy - 1, x + 2 * dx - 1⟩,
              ⟨y, x + 2 * dx, y + dy - 1, x + 3 * dx - 1⟩]
      else Option.none := rfl

theorem featOfParams_3y (w h y x dy dx : Nat) :
    featOfParams "type-3-y" w h y x dy dx =
      if y + 3 * dy ≤ h ∧ x + dx ≤ w then
        some [⟨y, x, y + dy - 1, x + dx - 1⟩,
              ⟨y + dy, x, y + 2 * dy - 1, x + dx - 1⟩,
              ⟨y + 2 * dy, x, y + 3 * dy - 1, x + dx - 1⟩]
      else Option.none := rfl

theorem featOfParams_4 (w h y x dy dx : Nat) :
    featOfParams "type-4" w h y x dy dx =
      if y + 2 * dy ≤ h ∧ x + 2 * dx ≤ w then
        some [⟨y, x, y + dy - 1, x + dx - 1⟩,
              ⟨y, x + dx, y + dy - 1, x + 2 * dx - 1⟩,
              ⟨y + dy, x + dx, y + 2 * dy - 1, x + 2 * dx - 1⟩,
              ⟨y + dy, x, y + 2 * dy - 1, x + dx - 1⟩]
      else Option.none := rfl

theorem mem_coords_type2x {w h : Nat} {f : Feature} :
    f ∈ coordsOfType w h "type-2-x" ↔
      ∃ y x dy dx, 1 ≤ dy ∧ dy + 1 ≤ h ∧ 1 ≤ dx ∧ dx + 1 ≤ w ∧
        y + dy ≤ h ∧ x + 2 * dx ≤ w ∧
        f = [⟨y, x, y + dy - 1, x + dx - 1⟩,
             ⟨y, x + dx, y + dy - 1, x + 2 * dx - 1⟩] := by
  constructor
  · intro hf
    obtain ⟨q, hq, hsome⟩ := List.mem_filterMap.1 hf
    obtain ⟨y, x, dy, dx⟩ := q
    obtain ⟨h1, h2, ⟨h3, h4⟩, h5, h6⟩ := mem_windowParams.1 hq
    dsimp only at hsome
    rw [featOfParams_2x] at hsome
    split at hsome
    · rename_i hcond
      exact ⟨y, x, dy, dx, h3, h4, h5, h6, hcond.1, hcond.2,
        (Option.some.inj hsome).symm⟩
    · exact absurd hsome (by simp)
  · rintro ⟨y, x, dy, dx, h1, h2, h3, h4, h5, h6, rfl⟩
    refine List.mem_filterMap.2 ⟨(y, x, dy, dx),
      windowParams_mem (by omega) (by omega) h1 h2 h3 h4, ?_⟩
    dsimp only
    rw [featOfParams_2x, if_pos ⟨h5, h6⟩]

theorem mem_coords_type2y {w h : Nat} {f : Feature} :
    f ∈ coordsOfType w h "type-2-y" ↔
      ∃ y x dy dx, 1 ≤ dy ∧ dy + 1 ≤ h ∧ 1 ≤ dx ∧ dx + 1 ≤ w ∧
        y + 2 * dy ≤ h ∧ x + dx ≤ w ∧
        f = [⟨y, x, y + dy - 1, x + dx - 1⟩,
             ⟨y + dy, x, y + 2 * dy - 1, x + dx - 1⟩] := by
  constructor
  · intro hf
    obtain ⟨q, hq, hsome⟩ := List.mem_filterMap.1 hf
    obtain ⟨y, x, dy, dx⟩ := q
    obtain ⟨h1, h2, ⟨h3, h4⟩, h5, h6⟩ := mem_windowParams.1 hq
    dsimp only at hsome
    rw [featOfParams_2y] at hsome
    split at hsome
    · rename_i hcond
      exact ⟨y, x, dy, dx, h3, h4, h5, h6, hcond.1, hcond.2,
        (Option.some.inj hsome).symm⟩
    · exact absurd hsome (by simp)
  · rintro ⟨y, x, dy, dx, h1, h2, h3, h4, h5, h6, rfl⟩
    refine List.mem_filterMap.2 ⟨(y, x, dy, dx),
      windowParams_mem (by omega) (by omega) h1 h2 h3 h4, ?_⟩
    dsimp only
    rw [featOfParams_2y, if_pos ⟨h5, h6⟩]

theorem mem_coords_type3x {w h : Nat} {f : Feature} :
    f ∈ coordsOfType w h "type-3-x" ↔
      ∃ y x dy dx, 1 ≤ dy ∧ dy + 1 ≤ h ∧ 1 ≤ dx ∧ dx + 1 ≤ w ∧
        y + dy ≤ h ∧ x + 3 * dx ≤ w ∧
        f = [⟨y, x, y + dy - 1, x + dx - 1⟩,
             ⟨y, x + dx, y + dy - 1, x + 2 * dx - 1⟩,
             ⟨y, x + 2 * dx, y + dy - 1, x + 3 * dx - 1⟩] := by
  constructor
  · intro hf
    obtain ⟨q, hq, hsome⟩ := List.mem_filterMap.1 hf
    obtain ⟨y, x, dy, dx⟩ := q
    obtain ⟨h1, h2, ⟨h3, h4⟩, h5, h6⟩ := mem_windowParams.1 hq
    dsimp only at hsome
    rw [featOfParams_3x] at hsome
    split at hsome
    · rename_i hcond
      exact ⟨y, x, dy, dx, h3, h4, h5, h6, hcond.1, hcond.2,
        (Option.some.inj hsome).symm⟩
    · exact absurd hsome (by simp)
  · rintro ⟨y, x, dy, dx, h1, h2, h3, h4, h5, h6, rfl⟩
    refine List.mem_filterMap.2 ⟨(y, x, dy, dx),
      windowParams_mem (by omega) (by omega) h1 h2 h3 h4, ?_⟩
    dsimp only
    rw [featOfParams_3x, if_pos ⟨h5, h6⟩]

theorem mem_coords_type3y {w h : Nat} {f : Feature} :
    f ∈ coordsOfType w h "type-3-y" ↔
      ∃ y x dy dx, 1 ≤ dy ∧ dy + 1 ≤ h ∧ 1 ≤ dx ∧ dx + 1 ≤ w ∧
        y + 3 * dy ≤ h ∧ x + dx ≤ w ∧
        f = [⟨y, x, y + dy - 1, x + dx - 1⟩,
             ⟨y + dy, x, y + 2 * dy - 1, x + dx - 1⟩,
             ⟨y + 2 * dy, x, y + 3 * dy - 1, x + dx - 1⟩] := by
  constructor
  · intro hf
    obtain ⟨q, hq, hsome⟩ := List.mem_filterMap.1 hf
    obtain ⟨y, x, dy, dx⟩ := q
    obtain ⟨h1, h2, ⟨h3, h4⟩, h5, h6⟩ := mem_windowParams.1 hq
    dsimp only at hsome
    rw [featOfParams_3y] at hsome
    split at hsome
    · rename_i hcond
      exact ⟨y, x, dy, dx, h3, h4, h5, h6, hcond.1, hcond.2,
        (Option.some.inj hsome).symm⟩
    · exact absurd hsome (by simp)
  · rintro ⟨y, x, dy, dx, h1, h2, h3, h4, h5, h6, rfl⟩
    refine List.mem_filterMap.2 ⟨(y, x, dy, dx),
      windowParams_mem (by omega) (by omega) h1 h2 h3 h4, ?_⟩
    dsimp only
    rw [featOfParams_3y, if_pos ⟨h5, h6⟩]

theorem mem_coords_type4 {w h : Nat} {f : Feature} :
    f ∈ coordsOfType w h "type-4" ↔
      ∃ y x dy dx, 1 ≤ dy ∧ dy + 1 ≤ h ∧ 1 ≤ dx ∧ dx + 1 ≤ w ∧
        y + 2 * dy ≤ h ∧ x + 2 * dx ≤ w ∧
        f = [⟨y, x, y + dy - 1, x + dx - 1⟩,
             ⟨y, x + dx, y + dy - 1, x + 2 * dx - 1⟩,
             ⟨y + dy, x + dx, y + 2 * dy - 1, x + 2 * dx - 1⟩,
             ⟨y + dy, x, y + 2 * dy - 1, x + dx - 1⟩] := by
  constructor
  · intro hf
    obtain ⟨q, hq, hsome⟩ := List.mem_filterMap.1 hf
    obtain ⟨y, x, dy, dx⟩ := q
    obtain ⟨h1, h2, ⟨h3, h4⟩, h5, h6⟩ := mem_windowParams.1 hq
    dsimp only at hsome
    rw [featOfParams_4] at hsome
    split at hsome
    · rename_i hcond
      exact ⟨y, x, dy, dx, h3, h4, h5, h6, hcond.1, hcond.2,
        (Option.some.inj hsome).symm⟩
    · exact absurd hsome (by simp)
  · rintro ⟨y, x, dy, dx, h1, h2, h3, h4, h5, h6, rfl⟩
    refine List.mem_filterMap.2 ⟨(y, x, dy, dx),
      windowParams_mem (by omega) (by omega) h1 h2 h3 h4, ?_⟩
    dsimp only
    rw [featOfParams_4, if_pos ⟨h5, h6⟩]

/-! ### The generated lists have no duplicates -/

theorem windowParams_bounds {w h y x dy dx : Nat}
    (hq : (y, x, dy, dx) ∈ windowParams w h) :
    y < h ∧ x < w ∧ (1 ≤ dy ∧ dy + 1 ≤ h) ∧ (1 ≤ dx ∧ dx + 1 ≤ w) :=
  mem_windowParams.1 hq

theorem nodup_filterMap_on {α β : Type _} {f : α → Option β} :
    ∀ {l : List α}, l.Nodup →
      (∀ a ∈ l, ∀ a' ∈ l, ∀ b, f a = some b → f a' = some b → a = a') →
      (l.filterMap f).Nodup := by
  intro l
  induction l with
  | nil => intro _ _; simp
  | cons a t ih =>
    intro hnd hinj
    rw [List.filterMap_cons]
    have htail : (List.filterMap f t).Nodup :=
      ih (List.nodup_cons.1 hnd).2 fun p hp p' hp' b hb hb' =>
        hinj p (List.mem_cons_of_mem _ hp) p' (List.mem_cons_of_mem _ hp') b hb hb'
    cases hfa : f a with
    | none => exact htail
    | some b =>
      refine List.nodup_cons.2 ⟨?_, htail⟩
      intro hmem
      obtain ⟨a', ha', hfa'⟩ := List.mem_filterMap.1 hmem
      have heq : a = a' :=
        hinj a (List.mem_cons_self a t) a' (List.mem_cons_of_mem _ ha') b hfa hfa'
      exact (List.nodup_cons.1 hnd).1 (heq ▸ ha')

theorem nodup_windowParams (w h : Nat) : (windowParams w h).Nodup :=
  (List.nodup_range h).product ((List.nodup_range w).product
    ((List.nodup_range' 1 (h - 1)).product (List.nodup_range' 1 (w - 1))))

theorem nodup_coords_type2x (w h : Nat) :
    (coordsOfType w h "type-2-x").Nodup := by
  refine nodup_filterMap_on (nodup_windowParams w h) ?_
  rintro ⟨y, x, dy, dx⟩ hq ⟨y', x', dy', dx'⟩ hq' b hb hb'
  obtain ⟨_, _, ⟨hdy, _⟩, hdx, _⟩ := windowParams_bounds hq
  obtain ⟨_, _, ⟨hdy', _⟩, hdx', _⟩ := windowParams_bounds hq'
  dsimp only at hb hb'
  rw [featOfParams_2x] at hb hb'
  split at hb
  · split at hb'
    · rw [← hb'] at hb
      simp only [Option.some.injEq, List.cons.injEq, Rect.mk.injEq, and_true]
        at hb
      simp only [Prod.mk.injEq]
      omega
    · exact absurd hb' (by simp)
  · exact absurd hb (by simp)

theorem nodup_coords_type3y (w h : Nat) :
    (coordsOfType w h "type-3-y").Nodup := by
  refine nodup_filterMap_on (nodup_windowParams w h) ?_
  rintro ⟨y, x, dy, dx⟩ hq ⟨y', x', dy', dx'⟩ hq' b hb hb'
  obtain ⟨_, _, ⟨hdy, _⟩, hdx, _⟩ := windowParams_bounds hq
  obtain ⟨_, _, ⟨hdy', _⟩, hdx', _⟩ := windowParams_bounds hq'
  dsimp only at hb hb'
  rw [featOfParams_3y] at hb hb'
  split at hb
  · split at hb'
    · rw [← hb'] at hb
      simp only [Option.some.injEq, List.cons.injEq, Rect.mk.injEq, and_true]
        at hb
      simp only [Prod.mk.injEq]
      omega
    · exact absurd hb' (by simp)
  · exact absurd hb (by simp)

theorem nodup_coords_type3x (w h : Nat) :
    (coordsOfType w h "type-3-x").Nodup := by
  refine nodup_filterMap_on (nodup_windowParams w h) ?_
  rintro ⟨y, x, dy, dx⟩ hq ⟨y', x', dy', dx'⟩ hq' b hb hb'
  obtain ⟨_, _, ⟨hdy, _⟩, hdx, _⟩ := windowParams_bounds hq
  obtain ⟨_, _, ⟨hdy', _⟩, hdx', _⟩ := windowParams_bounds hq'
  dsimp only at hb hb'
  rw [featOfParams_3x] at hb hb'
  split at hb
  · split at hb'
    · rw [← hb'] at hb
      simp only [Option.some.injEq, List.cons.injEq, Rect.mk.injEq, and_true]
        at hb
      simp only [Prod.mk.injEq]
      omega
    · exact absurd hb' (by simp)
  · exact absurd hb (by simp)

/-! ### Validation (claim C6) -/

theorem firstUnknown_eq_none {l : List String} :
    firstUnknown l = Option.none ↔ ∀ t ∈ l, t ∈ FEATURE_TYPE := by
  induction l with
  | nil => simp [firstUnknown]
  | cons a t ih =>
    by_cases ha : a ∈ FEATURE_TYPE
    · simp [firstUnknown, ha, ih]
    · simp [firstUnknown, ha]

theorem firstUnknown_mem :
    ∀ {l : List String} {u : String}, firstUnknown l = some u →
      u ∈ l ∧ u ∉ FEATURE_TYPE := by
  intro l
  induction l with
  | nil => intro u hu; exact absurd hu (by simp [firstUnknown])
  | cons a t ih =>
    intro u hu
    by_cases ha : a ∈ FEATURE_TYPE
    · rw [firstUnknown, if_pos ha] at hu
      obtain ⟨h1, h2⟩ := ih hu
      exact ⟨List.mem_cons_of_mem _ h1, h2⟩
    · rw [firstUnknown, if_neg ha] at hu
      cases hu
      exact ⟨List.mem_cons_self _ _, ha⟩

/-- C6: topology-request validation maps an unspecified request to all five
topologies in the fixed canonical order, and any request containing a name
outside the canonical five fails with the invalid-topology error carrying an
offending token of the request and the full valid set. -/
theorem C6_validate_topology_request :
    validate_feature_type .unspecified = .ok FEATURE_TYPE ∧
    FEATURE_TYPE = ["type-2-x", "type-2-y", "type-3-x", "type-3-y", "type-4"] ∧
    (∀ s, s ∉ FEATURE_TYPE →
      validate_feature_type (.single s) =
        .error (.invalidTopology s FEATURE_TYPE)) ∧
    (∀ l t, t ∈ l → t ∉ FEATURE_TYPE →
      ∃ u, u ∈ l ∧ u ∉ FEATURE_TYPE ∧
        validate_feature_type (.list l) =
          .error (.invalidTopology u FEATURE_TYPE)) := by
  refine ⟨rfl, rfl, ?_, ?_⟩
  · intro s hs
    simp [validate_feature_type, firstUnknown, hs]
  · intro l t htl hts
    have hnone : firstUnknown l ≠ Option.none := by
      intro hn
      exact hts (firstUnknown_eq_none.1 hn t htl)
    obtain ⟨u, hu⟩ := Option.ne_none_iff_exists'.1 hnone
    obtain ⟨hul, huv⟩ := firstUnknown_mem hu
    exact ⟨u, hul, huv, by simp [validate_feature_type, hu]⟩

/-- Witness for C6 at the spec's own example token "type-5". -/
theorem C6_validate_topology_request_witness :
    validate_feature_type (.single "type-5") =
      .error (.invalidTopology "type-5" FEATURE_TYPE) :=
  C6_validate_topology_request.2.2.1 "type-5" (by decide)

/-! ### Shape mismatch (claim C7) -/

/-- C7: the subset mode demands coordinate and type-label sequences of equal
length; any length mismatch fails with the shape-mismatch error before any
evaluation. -/
theorem C7_subset_shape_mismatch (ii : IntegralImage) (r c w h : Nat)
    (coords : List Feature) (types : List String)
    (hne : coords.length ≠ types.length) :
    haar_like_feature_subset ii r c w h coords types = .error .shapeMismatch := by
  unfold haar_like_feature_subset
  rw [if_pos hne]

/-- Witness for C7: three coordinates but two type labels. -/
theorem C7_subset_shape_mismatch_witness :
    haar_like_feature_subset onesII 0 0 5 5 [[], [], []]
      ["type-2-x", "type-2-x"] = .error .shapeMismatch :=
  C7_subset_shape_mismatch onesII 0 0 5 5 [[], [], []]
    ["type-2-x", "type-2-x"] (by decide)

/-! ### The 2 × 2 window with type-4 (claim C9) -/

/-- C9: a 2 × 2 window with topology type-4 yields exactly one feature, made
of four 1 × 1 rectangles (each has r0 = r1 and c0 = c1), and its signs form
the positional checkerboard: the top-right and bottom-left quadrants enter
positively, the top-left and bottom-right negatively. -/
theorem C9_type4_smallest_window :
    coordsOfType 2 2 "type-4" =
      [[⟨0, 0, 0, 0⟩, ⟨0, 1, 0, 1⟩, ⟨1, 1, 1, 1⟩, ⟨1, 0, 1, 0⟩]] ∧
    (∀ ii r c, featureValue ii r c
        [⟨0, 0, 0, 0⟩, ⟨0, 1, 0, 1⟩, ⟨1, 1, 1, 1⟩, ⟨1, 0, 1, 0⟩] =
      rectSumAt ii r c ⟨0, 1, 0, 1⟩ + rectSumAt ii r c ⟨1, 0, 1, 0⟩
        - rectSumAt ii r c ⟨0, 0, 0, 0⟩ - rectSumAt ii r c ⟨1, 1, 1, 1⟩) := by
  constructor
  · decide
  · intro ii r c
    simp [featureValue, evalRects]
    ring

/-! ### The type-4 rectangle order (claim C3) -/

/-- C3 counterexample: the single type-4 feature of a 2 × 2 window lists its
rectangles top-left, top-right, bottom-right, bottom-left — the rectangle at
index 2 is the bottom-RIGHT quadrant — so the rectangles are not in row-major
order (which would put the bottom-left third). -/
theorem C3_type4_not_row_major :
    coordsOfType 2 2 "type-4" =
      [[⟨0, 0, 0, 0⟩, ⟨0, 1, 0, 1⟩, ⟨1, 1, 1, 1⟩, ⟨1, 0, 1, 0⟩]] ∧
    [⟨0, 0, 0, 0⟩, ⟨0, 1, 0, 1⟩, ⟨1, 1, 1, 1⟩, ⟨1, 0, 1, 0⟩] ≠
      ([⟨0, 0, 0, 0⟩, ⟨0, 1, 0, 1⟩, ⟨1, 0, 1, 0⟩, ⟨1, 1, 1, 1⟩] : Feature) := by
  exact ⟨by decide, by decide⟩

/-- C3 amended: every type-4 feature consists of four equal quadrant
rectangles listed clockwise from the top-left (top-left, top-right,
bottom-right, bottom-left), and the alternating per-index signs realize the
positional checkerboard: top-left and bottom-right negative, top-right and
bottom-left positive. -/
theorem C3_type4_clockwise_checkerboard (w h : Nat) (f : Feature)
    (hf : f ∈ coordsOfType w h "type-4") :
    ∃ y x dy dx, 1 ≤ dy ∧ 1 ≤ dx ∧ y + 2 * dy ≤ h ∧ x + 2 * dx ≤ w ∧
      f = [⟨y, x, y + dy - 1, x + dx - 1⟩,
           ⟨y, x + dx, y + dy - 1, x + 2 * dx - 1⟩,
           ⟨y + dy, x + dx, y + 2 * dy - 1, x + 2 * dx - 1⟩,
           ⟨y + dy, x, y + 2 * dy - 1, x + dx - 1⟩] ∧
      ∀ ii r c, featureValue ii r c f =
        rectSumAt ii r c ⟨y, x + dx, y + dy - 1, x + 2 * dx - 1⟩
          + rectSumAt ii r c ⟨y + dy, x, y + 2 * dy - 1, x + dx - 1⟩
          - rectSumAt ii r c ⟨y, x, y + dy - 1, x + dx - 1⟩
          - rectSumAt ii r c ⟨y + dy, x + dx, y + 2 * dy - 1, x + 2 * dx - 1⟩ := by
  obtain ⟨y, x, dy, dx, h1, h2, h3, h4, h5, h6, rfl⟩ := mem_coords_type4.1 hf
  refine ⟨y, x, dy, dx, h1, h3, h5, h6, rfl, ?_⟩
  intro ii r c
  simp [featureValue, evalRects]
  ring

/-- Witness for the amended C3, at the 2 × 2 window's single feature. -/
theorem C3_type4_clockwise_checkerboard_witness :
    ∃ y x dy dx, 1 ≤ dy ∧ 1 ≤ dx ∧ y + 2 * dy ≤ 2 ∧ x + 2 * dx ≤ 2 ∧
      ([⟨0, 0, 0, 0⟩, ⟨0, 1, 0, 1⟩, ⟨1, 1, 1, 1⟩, ⟨1, 0, 1, 0⟩] : Feature) =
        [⟨y, x, y + dy - 1, x + dx - 1⟩,
         ⟨y, x + dx, y + dy - 1, x + 2 * dx - 1⟩,
         ⟨y + dy, x + dx, y + 2 * dy - 1, x + 2 * dx - 1⟩,
         ⟨y + dy, x, y + 2 * dy - 1, x + dx - 1⟩] ∧
      ∀ ii r c, featureValue ii r c
          ([⟨0, 0, 0, 0⟩, ⟨0, 1, 0, 1⟩, ⟨1, 1, 1, 1⟩, ⟨1, 0, 1, 0⟩] : Feature) =
        rectSumAt ii r c ⟨y, x + dx, y + dy - 1, x + 2 * dx - 1⟩
          + rectSumAt ii r c ⟨y + dy, x, y + 2 * dy - 1, x + dx - 1⟩
          - rectSumAt ii r c ⟨y, x, y + dy - 1, x + dx - 1⟩
          - rectSumAt ii r c ⟨y + dy, x + dx, y + 2 * dy - 1, x + 2 * dx - 1⟩ :=
  C3_type4_clockwise_checkerboard 2 2
    [⟨0, 0, 0, 0⟩, ⟨0, 1, 0, 1⟩, ⟨1, 1, 1, 1⟩, ⟨1, 0, 1, 0⟩] (by decide)

/-! ### Window bounds (claim C8) -/

theorem validate_errors_are_invalid_topology {arg : FeatureTypeArg}
    {e : HaarError} (h : validate_feature_type arg = .error e) :
    ∃ u, e = .invalidTopology u FEATURE_TYPE := by
  cases arg with
  | unspecified => exact absurd h (by simp [validate_feature_type])
  | single s =>
    rw [validate_feature_type] at h
    cases hu : firstUnknown [s] with
    | none => rw [hu] at h; exact absurd h (by simp)
    | some u => rw [hu] at h; exact ⟨u, (Except.error.inj h).symm⟩
  | list l =>
    rw [validate_feature_type] at h
    cases hu : firstUnknown l with
    | none => rw [hu] at h; exact absurd h (by simp)
    | some u => rw [hu] at h; exact ⟨u, (Except.error.inj h).symm⟩

/-- C8: both evaluation modes verify that the window at offset (r, c) with
the given width and height lies inside the integral image, fail with the
window-out-of-bounds error whenever it does not (producing no values), and a
fitting window never produces that error in full mode. -/
theorem C8_window_bounds (ii : IntegralImage) (r c w h : Nat) :
    (∀ arg ts, validate_feature_type arg = .ok ts →
      ¬windowFits ii r c w h →
      haar_like_feature_full ii r c w h arg = .error .windowOutOfBounds) ∧
    (∀ (coords : List Feature) (types : List String),
      coords.length = types.length → ¬windowFits ii r c w h →
      haar_like_feature_subset ii r c w h coords types =
        .error .windowOutOfBounds) ∧
    (windowFits ii r c w h → ∀ arg,
      haar_like_feature_full ii r c w h arg ≠ .error .windowOutOfBounds) := by
  refine ⟨?_, ?_, ?_⟩
  · intro arg ts hval hfit
    unfold haar_like_feature_full
    rw [hval]
    dsimp only
    rw [if_neg hfit]
  · intro coords types hlen hfit
    unfold haar_like_feature_subset
    rw [if_neg (by omega), if_neg hfit]
  · intro hfit arg
    unfold haar_like_feature_full
    cases hval : validate_feature_type arg with
    | error e =>
      obtain ⟨u, rfl⟩ := validate_errors_are_invalid_topology hval
      simp
    | ok ts => dsimp only; rw [if_pos hfit]; split <;> simp

/-- Witness for C8: a 6-wide window request on the 5 × 5 integral image. -/
theorem C8_window_bounds_witness :
    haar_like_feature_full onesII 0 0 6 5 .unspecified =
      .error .windowOutOfBounds :=
  (C8_window_bounds onesII 0 0 6 5).1 .unspecified FEATURE_TYPE rfl (by decide)

/-! ### The enumeration shape (claim C1) -/

/-- C1 counterexample: the enumeration the spec claims (twoRectXSpec, every
total width, every height up to the window, every split point) and the
generator disagree.  For a 2 × 1 window the claim contains the single
full-height feature while the generator yields nothing (rectangle heights
stop at height-1); for a 3 × 3 window the claimed unequal split (widths 1
and 2) is never generated. -/
theorem C1_enumeration_cex :
    ¬ (coordsOfType 2 1 "type-2-x").Perm (twoRectXSpec 2 1) ∧
    ([⟨0, 0, 0, 0⟩, ⟨0, 1, 0, 1⟩] : Feature) ∈ twoRectXSpec 2 1 ∧
    coordsOfType 2 1 "type-2-x" = [] ∧
    ([⟨0, 0, 0, 0⟩, ⟨0, 1, 0, 2⟩] : Feature) ∈ twoRectXSpec 3 3 ∧
    ([⟨0, 0, 0, 0⟩, ⟨0, 1, 0, 2⟩] : Feature) ∉ coordsOfType 3 3 "type-2-x" := by
  refine ⟨by decide, by decide, by decide, by decide, by decide⟩

/-- C1 amended: the generator enumerates, with no duplicates, exactly one
two-rectangle feature for every top-left (y, x), every half-width dx with
1 ≤ dx ≤ width-1 and x + 2·dx ≤ width, and every height dy with
1 ≤ dy ≤ height-1 and y + dy ≤ height, split at the midpoint x + dx (equal
halves only); and analogously the three-rectangle topologies enumerate, with
no duplicates, exactly one feature per equal-thirds subdivision — along
columns with 1 ≤ dx ≤ width-1 and x + 3·dx ≤ width, and along rows with
1 ≤ dy ≤ height-1 and y + 3·dy ≤ height — never an unequal pair of split
points. -/
theorem C1_equal_split_enumeration (w h : Nat) :
    (∀ f : Feature, f ∈ coordsOfType w h "type-2-x" ↔
      ∃ y x dy dx, 1 ≤ dy ∧ dy + 1 ≤ h ∧ 1 ≤ dx ∧ dx + 1 ≤ w ∧
        y + dy ≤ h ∧ x + 2 * dx ≤ w ∧
        f = [⟨y, x, y + dy - 1, x + dx - 1⟩,
             ⟨y, x + dx, y + dy - 1, x + 2 * dx - 1⟩]) ∧
    (∀ f : Feature, f ∈ coordsOfType w h "type-3-x" ↔
      ∃ y x dy dx, 1 ≤ dy ∧ dy + 1 ≤ h ∧ 1 ≤ dx ∧ dx + 1 ≤ w ∧
        y + dy ≤ h ∧ x + 3 * dx ≤ w ∧
        f = [⟨y, x, y + dy - 1, x + dx - 1⟩,
             ⟨y, x + dx, y + dy - 1, x + 2 * dx - 1⟩,
             ⟨y, x + 2 * dx, y + dy - 1, x + 3 * dx - 1⟩]) ∧
    (∀ f : Feature, f ∈ coordsOfType w h "type-3-y" ↔
      ∃ y x dy dx, 1 ≤ dy ∧ dy + 1 ≤ h ∧ 1 ≤ dx ∧ dx + 1 ≤ w ∧
        y + 3 * dy ≤ h ∧ x + dx ≤ w ∧
        f = [⟨y, x, y + dy - 1, x + dx - 1⟩,
             ⟨y + dy, x, y + 2 * dy - 1, x + dx - 1⟩,
             ⟨y + 2 * dy, x, y + 3 * dy - 1, x + dx - 1⟩]) ∧
    (coordsOfType w h "type-2-x").Nodup ∧
    (coordsOfType w h "type-3-x").Nodup ∧
    (coordsOfType w h "type-3-y").Nodup :=
  ⟨fun _ => mem_coords_type2x, fun _ => mem_coords_type3x,
   fun _ => mem_coords_type3y, nodup_coords_type2x w h,
   nodup_coords_type3x w h, nodup_coords_type3y w h⟩

/-! ### The sign rule (claim C2) -/

theorem featureValue_pair (ii : IntegralImage) (r c : Nat) (a b : Rect) :
    featureValue ii r c [a, b] = rectSumAt ii r c b - rectSumAt ii r c a := by
  simp [featureValue, evalRects]
  ring

theorem featureValue_triple (ii : IntegralImage) (r c : Nat) (a b d : Rect) :
    featureValue ii r c [a, b, d] =
      rectSumAt ii r c b - rectSumAt ii r c a - rectSumAt ii r c d := by
  simp [featureValue, evalRects]
  ring

/-- C2: for every feature of the two- and three-rectangle topologies, the
evaluator returns the sum of the integral sums of the rectangles at odd
0-based indices minus the sum of those at even indices — index 0 negative,
index 1 positive, index 2 negative. -/
theorem C2_sign_rule (ii : IntegralImage) (r c w h : Nat) (t : String)
    (ht : t = "type-2-x" ∨ t = "type-2-y" ∨ t = "type-3-x" ∨ t = "type-3-y")
    (f : Feature) (hf : f ∈ coordsOfType w h t) :
    featureValue ii r c f =
      ((f.enum.filter fun p => p.1 % 2 == 1).map fun p =>
          rectSumAt ii r c p.2).sum
        - ((f.enum.filter fun p => p.1 % 2 == 0).map fun p =>
            rectSumAt ii r c p.2).sum := by
  rcases ht with rfl | rfl | rfl | rfl
  · obtain ⟨y, x, dy, dx, _, _, _, _, _, _, rfl⟩ := mem_coords_type2x.1 hf
    rw [featureValue_pair]
    simp [List.enum, List.enumFrom]
  · obtain ⟨y, x, dy, dx, _, _, _, _, _, _, rfl⟩ := mem_coords_type2y.1 hf
    rw [featureValue_pair]
    simp [List.enum, List.enumFrom]
  · obtain ⟨y, x, dy, dx, _, _, _, _, _, _, rfl⟩ := mem_coords_type3x.1 hf
    rw [featureValue_triple]
    simp [List.enum, List.enumFrom]
    ring
  · obtain ⟨y, x, dy, dx, _, _, _, _, _, _, rfl⟩ := mem_coords_type3y.1 hf
    rw [featureValue_triple]
    simp [List.enum, List.enumFrom]
    ring

/-- Witness for C2 at a concrete feature of a 2 × 2 window over the ones
integral image. -/
theorem C2_sign_rule_witness :
    featureValue onesII 0 0 [⟨0, 0, 0, 0⟩, ⟨0, 1, 0, 1⟩] =
      ((([⟨0, 0, 0, 0⟩, ⟨0, 1, 0, 1⟩] :
            Feature).enum.filter fun p => p.1 % 2 == 1).map fun p =>
          rectSumAt onesII 0 0 p.2).sum
        - ((([⟨0, 0, 0, 0⟩, ⟨0, 1, 0, 1⟩] :
              Feature).enum.filter fun p => p.1 % 2 == 0).map fun p =>
            rectSumAt onesII 0 0 p.2).sum :=
  C2_sign_rule onesII 0 0 2 2 "type-2-x" (Or.inl rfl)
    [⟨0, 0, 0, 0⟩, ⟨0, 1, 0, 1⟩] (by decide)

/-! ### List helper lemmas for the subset machinery -/

theorem getD_set_ne_int (l : List Int) (i k : Nat) (v : Int) (hik : i ≠ k) :
    (l.set i v).getD k 0 = l.getD k 0 := by
  rw [List.getD_eq_getElem?_getD, List.getD_eq_getElem?_getD,
    List.getElem?_set_ne hik]

theorem getD_set_self_int (l : List Int) (i : Nat) (v : Int)
    (hi : i < l.length) :
    (l.set i v).getD i 0 = v := by
  rw [List.getD_eq_getElem?_getD, List.getElem?_set_self hi]
  rfl

theorem map_getD_range {α β : Type _} [Inhabited α] (f : α → β) (l : List α) :
    (List.range l.length).map (fun j => f (l.getD j default)) = l.map f := by
  apply List.ext_getElem
  · simp
  · intro i h1 h2
    simp only [List.getElem_map, List.getElem_range]
    rw [List.getD_eq_getElem]

theorem flatMap_append_perm {α β : Type _} (l : List α) (f g : α → List β) :
    (l.flatMap fun a => f a ++ g a).Perm (l.flatMap f ++ l.flatMap g) := by
  induction l with
  | nil => simp
  | cons a t ih =>
    simp only [List.flatMap_cons]
    have hsh : (g a ++ (t.flatMap f ++ t.flatMap g)).Perm
        (t.flatMap f ++ (g a ++ t.flatMap g)) := by
      rw [← List.append_assoc, ← List.append_assoc]
      exact List.Perm.append_right _ List.perm_append_comm
    refine (List.Perm.append_left (f a ++ g a) ih).trans ?_
    rw [List.append_assoc, List.append_assoc]
    exact List.Perm.append_left _ hsh

theorem flatMap_ite_single {α : Type _} (a : α) (s : String) :
    ∀ (ts : List String), ts.Nodup →
      (ts.flatMap fun t => if s = t then [a] else []) =
        if s ∈ ts then [a] else [] := by
  intro ts
  induction ts with
  | nil => intro _; rfl
  | cons t ts ih =>
    intro hnd
    rw [List.flatMap_cons, ih (List.nodup_cons.1 hnd).2]
    by_cases hst : s = t
    · subst hst
      rw [if_pos rfl, if_pos (List.mem_cons_self _ _),
        if_neg fun hm => (List.nodup_cons.1 hnd).1 hm]
      rfl
    · rw [if_neg hst]
      by_cases hsts : s ∈ ts
      · rw [if_pos hsts, if_pos (List.mem_cons_of_mem _ hsts)]
        rfl
      · rw [if_neg hsts, if_neg (by simp [hst, hsts])]
        rfl

theorem flatMap_filter_perm {α : Type _} (lab : α → String) (ts : List String)
    (hnd : ts.Nodup) :
    ∀ l : List α,
      (ts.flatMap fun t => l.filter fun x => lab x == t).Perm
        (l.filter fun x => decide (lab x ∈ ts)) := by
  intro l
  induction l with
  | nil => simp
  | cons a l' ih =>
    have hsplit : (fun t => (a :: l').filter fun x => lab x == t) =
        fun t => (if lab a = t then [a] else []) ++
          l'.filter fun x => lab x == t := by
      funext t
      rw [List.filter_cons]
      by_cases hat : lab a = t
      · rw [if_pos (by simp [hat]), if_pos hat]
        rfl
      · rw [if_neg (by simp [hat]), if_neg hat]
        rfl
    rw [hsplit]
    refine (flatMap_append_perm ts _ _).trans ?_
    rw [flatMap_ite_single a (lab a) ts hnd, List.filter_cons]
    by_cases hmem : lab a ∈ ts
    · rw [if_pos hmem, if_pos (by simp [hmem])]
      exact ih.cons a
    · rw [if_neg hmem, if_neg (by simp [hmem])]
      exact ih

theorem flatMap_id_filter_nonempty {α : Type _} :
    ∀ L : List (List α),
      ((L.filter fun g => !g.isEmpty).flatMap id) = L.flatMap id := by
  intro L
  induction L with
  | nil => rfl
  | cons g L ih => cases g <;> simp [List.filter_cons, ih]

theorem enum_getD {α : Type _} [Inhabited α] {l : List α} {i : Nat} {x : α}
    (h : (i, x) ∈ l.enum) : l.getD i default = x := by
  rw [List.getD_eq_getElem?_getD, List.mk_mem_enum_iff_getElem?.1 h]
  rfl

theorem enumFrom_snd_mem {α : Type _} {n : Nat} {l : List α} {p : Nat × α}
    (hp : p ∈ List.enumFrom n l) : p.2 ∈ l := by
  obtain ⟨i, x⟩ := p
  exact List.getElem?_mem
    (List.mk_mem_enumFrom_iff_le_and_getElem?_sub.1 hp).2

/-! ### Correctness of the scatter -/

theorem scatter_spec (f : Nat → Int) :
    ∀ (idx : List Nat) (vals base : List Int),
      idx.length = vals.length → idx.Nodup →
      (∀ i ∈ idx, i < base.length) →
      (∀ p ∈ idx.zip vals, p.2 = f p.1) →
      ∃ out, scatter base idx vals = some out ∧
        out.length = base.length ∧
        (∀ k, k < base.length → k ∉ idx → out.getD k 0 = base.getD k 0) ∧
        (∀ k ∈ idx, out.getD k 0 = f k) := by
  intro idx
  induction idx with
  | nil =>
    intro vals base hlen _ _ _
    cases vals with
    | nil =>
      exact ⟨base, rfl, rfl, fun k _ _ => rfl, fun k hk => absurd hk (by simp)⟩
    | cons v vs => simp at hlen
  | cons i is ih =>
    intro vals base hlen hnd hbound hval
    cases vals with
    | nil => simp at hlen
    | cons v vs =>
      have hi : i < base.length := hbound i (List.mem_cons_self _ _)
      have hlen' : is.length = vs.length := by simpa using hlen
      obtain ⟨out, hout, hlen2, huntouched, hwritten⟩ :=
        ih vs (base.set i v) hlen' (List.nodup_cons.1 hnd).2
          (fun j hj => by
            rw [List.length_set]
            exact hbound j (List.mem_cons_of_mem _ hj))
          (fun p hp => hval p (by
            rw [List.zip_cons_cons]
            exact List.mem_cons_of_mem _ hp))
      refine ⟨out, ?_, by rw [hlen2, List.length_set], ?_, ?_⟩
      · rw [scatter, if_pos hi]
        exact hout
      · intro k hk hkn
        have hki : i ≠ k := fun he => hkn (he ▸ List.mem_cons_self _ _)
        have hkis : k ∉ is := fun hm => hkn (List.mem_cons_of_mem _ hm)
        rw [huntouched k (by rw [List.length_set]; exact hk) hkis]
        exact getD_set_ne_int base i k v hki
      · intro k hk
        rcases List.mem_cons.1 hk with rfl | hkis
        · have his : k ∉ is := (List.nodup_cons.1 hnd).1
          rw [huntouched k (by rw [List.length_set]; exact hi) his]
          have hv : v = f k := hval (k, v) (by
            rw [List.zip_cons_cons]
            exact List.mem_cons_self _ _)
          rw [getD_set_self_int base k v hi, hv]
        · exact hwritten k hkis

theorem flatMap_congr {α β : Type _} {f g : α → List β} :
    ∀ {l : List α}, (∀ a ∈ l, f a = g a) → l.flatMap f = l.flatMap g := by
  intro l
  induction l with
  | nil => intro _; rfl
  | cons a t ih =>
    intro hfg
    rw [List.flatMap_cons, List.flatMap_cons, hfg a (List.mem_cons_self a t),
      ih fun b hb => hfg b (List.mem_cons_of_mem _ hb)]

/-- The central lemma about the subset branch: when the input is a block of
recognized-label entries followed by a block of unrecognized-label ones, the
group-and-scatter body succeeds and returns exactly the values of the
recognized block, in the block's own order. -/
theorem subsetCore_split (ii : IntegralImage) (r c : Nat)
    (cA cB : List Feature) (tA tB : List String)
    (hlenA : cA.length = tA.length) (hlenB : cB.length = tB.length)
    (hvA : ∀ t ∈ tA, t ∈ FEATURE_TYPE) (hvB : ∀ t ∈ tB, t ∉ FEATURE_TYPE)
    (hne : cA ≠ []) :
    subsetCore ii r c (cA ++ cB) (tA ++ tB) =
      .ok ((List.range cA.length).map fun q =>
        featureValue ii r c (cA.getD q default)) := by
  have hzipA_len : (cA.zip tA).length = cA.length := by
    rw [List.length_zip, hlenA]
    exact Nat.min_self _
  have hitems : ((cA ++ cB).zip (tA ++ tB)).enum
      = (cA.zip tA).enum ++ List.enumFrom (cA.zip tA).length (cB.zip tB) := by
    rw [List.zip_append hlenA, List.enum_append]
  have hflat : subsetFlat (cA ++ cB) (tA ++ tB)
      = FEATURE_TYPE.flatMap fun t =>
          ((cA ++ cB).zip (tA ++ tB)).enum.filter fun pr => pr.2.2 == t := by
    rw [subsetFlat, subsetGroups, flatMap_id_filter_nonempty, List.flatMap_map]
    rfl
  have hgroupB : ∀ t ∈ FEATURE_TYPE,
      (((cA ++ cB).zip (tA ++ tB)).enum.filter fun pr => pr.2.2 == t)
        = (cA.zip tA).enum.filter fun pr => pr.2.2 == t := by
    intro t htFT
    rw [hitems, List.filter_append]
    have hB : ((List.enumFrom (cA.zip tA).length (cB.zip tB)).filter
        fun pr => pr.2.2 == t) = [] := by
      rw [List.filter_eq_nil_iff]
      intro pr hpr
      have h2 : pr.2.2 ∈ tB := (List.of_mem_zip (enumFrom_snd_mem hpr)).2
      have h3 : pr.2.2 ≠ t := fun he => hvB _ h2 (he ▸ htFT)
      simp [h3]
    rw [hB, List.append_nil]
  have hperm : (subsetFlat (cA ++ cB) (tA ++ tB)).Perm ((cA.zip tA).enum) := by
    rw [hflat, flatMap_congr hgroupB]
    refine (flatMap_filter_perm
      (fun pr : Nat × Feature × String => pr.2.2) FEATURE_TYPE (by decide)
      _).trans ?_
    rw [List.filter_eq_self.2 ?_]
    · intro pr hpr
      have hmem : pr.2 ∈ cA.zip tA := enumFrom_snd_mem hpr
      exact decide_eq_true (hvA pr.2.2 (List.of_mem_zip hmem).2)
  have hAlen : ((cA.zip tA).enum).length = cA.length := by
    rw [List.enum_length, hzipA_len]
  have hflatlen : (subsetFlat (cA ++ cB) (tA ++ tB)).length = cA.length := by
    rw [hperm.length_eq, hAlen]
  have hflatne : subsetFlat (cA ++ cB) (tA ++ tB) ≠ [] := by
    intro h0
    apply hne
    apply List.length_eq_zero.1
    rw [← hflatlen, h0]
    rfl
  have hgroups_ne : (subsetGroups (cA ++ cB) (tA ++ tB)).isEmpty = false := by
    rcases hg : (subsetGroups (cA ++ cB) (tA ++ tB)).isEmpty with _ | _
    · rfl
    · exfalso
      apply hflatne
      rw [subsetFlat, List.isEmpty_iff.1 hg]
      rfl
  -- the contents of the flattened groups
  have hmem_flat : ∀ pr ∈ subsetFlat (cA ++ cB) (tA ++ tB),
      featureValue ii r c pr.2.1 =
        featureValue ii r c (cA.getD pr.1 default) ∧ pr.1 < cA.length := by
    intro pr hpr
    have hprA : pr ∈ (cA.zip tA).enum := hperm.mem_iff.1 hpr
    obtain ⟨i, x⟩ := pr
    have hx : (cA.zip tA)[i]? = some x := List.mk_mem_enum_iff_getElem?.1 hprA
    obtain ⟨hilt, hxval⟩ := List.getElem?_eq_some_iff.1 hx
    have hiA : i < cA.length := by rw [← hzipA_len]; exact hilt
    constructor
    · have hx1 : x.1 = cA.getD i default := by
        rw [← hxval, List.getElem_zip]
        rw [List.getD_eq_getElem cA default hiA]
      dsimp only
      rw [hx1]
    · exact hiA
  -- the index permutation
  have hpermIdx : ((subsetFlat (cA ++ cB) (tA ++ tB)).map fun pr => pr.1).Perm
      (List.range cA.length) := by
    refine (hperm.map fun pr => pr.1).trans ?_
    have := List.enum_map_fst (cA.zip tA)
    rw [show (fun pr : Nat × Feature × String => pr.1) = Prod.fst from rfl,
      this, hzipA_len]
  obtain ⟨out, hout, houtlen, _, hwritten⟩ :=
    scatter_spec (fun q => featureValue ii r c (cA.getD q default))
      ((subsetFlat (cA ++ cB) (tA ++ tB)).map fun pr => pr.1)
      ((subsetFlat (cA ++ cB) (tA ++ tB)).map fun pr =>
        featureValue ii r c pr.2.1)
      ((subsetFlat (cA ++ cB) (tA ++ tB)).map fun pr =>
        featureValue ii r c pr.2.1)
      (by simp)
      (hpermIdx.nodup_iff.2 (List.nodup_range _))
      (by
        intro i hi
        rw [List.length_map, hflatlen]
        exact List.mem_range.1 (hpermIdx.mem_iff.1 hi))
      (by
        intro p hp
        rw [List.zip_map'] at hp
        obtain ⟨pr, hpr, rfl⟩ := List.mem_map.1 hp
        exact (hmem_flat pr hpr).1)
  have houtlen' : out.length = cA.length := by
    rw [houtlen, List.length_map, hflatlen]
  have hout_eq : out = (List.range cA.length).map fun q =>
      featureValue ii r c (cA.getD q default) := by
    apply List.ext_getElem
    · rw [houtlen']
      simp
    · intro i h1 h2
      have hiA : i < cA.length := by rw [← houtlen']; exact h1
      rw [List.getElem_map, List.getElem_range, ← List.getD_eq_getElem out 0 h1]
      exact hwritten i (hpermIdx.mem_iff.2 (List.mem_range.2 hiA))
  rw [subsetCore, hgroups_ne]
  rw [if_neg Bool.false_ne_true]
  rw [hout]
  dsimp only
  rw [hout_eq]

/-- Block-free corollary: on inputs whose labels are all recognized, the
group-and-scatter body returns every input feature's value at the feature's
own input position. -/
theorem subsetCore_ok (ii : IntegralImage) (r c : Nat)
    (coords : List Feature) (types : List String)
    (hlen : coords.length = types.length)
    (hv : ∀ t ∈ types, t ∈ FEATURE_TYPE) (hne : coords ≠ []) :
    subsetCore ii r c coords types =
      .ok ((List.range coords.length).map fun q =>
        featureValue ii r c (coords.getD q default)) := by
  have h := subsetCore_split ii r c coords [] types [] hlen rfl hv
    (by intro t ht; exact absurd ht (List.not_mem_nil t)) hne
  rw [List.append_nil, List.append_nil] at h
  exact h

theorem validate_ok_subset {arg : FeatureTypeArg} {ts0 : List String}
    (h : validate_feature_type arg = .ok ts0) :
    ∀ t ∈ ts0, t ∈ FEATURE_TYPE := by
  cases arg with
  | unspecified =>
    cases h
    intro t ht
    exact ht
  | single s =>
    rw [validate_feature_type] at h
    cases hu : firstUnknown [s] with
    | none =>
      rw [hu] at h
      cases h
      intro t ht
      rcases List.mem_singleton.1 ht with rfl
      exact firstUnknown_eq_none.1 hu t (List.mem_singleton_self _)
    | some u => rw [hu] at h; exact absurd h (by simp)
  | list l =>
    rw [validate_feature_type] at h
    cases hu : firstUnknown l with
    | none =>
      rw [hu] at h
      cases h
      exact firstUnknown_eq_none.1 hu
    | some u => rw [hu] at h; exact absurd h (by simp)

theorem flatMap_label_length (w h : Nat) : ∀ ts0 : List String,
    (ts0.flatMap (coordsOfType w h)).length =
      (ts0.flatMap fun t => (coordsOfType w h t).map fun _ => t).length := by
  intro ts0
  induction ts0 with
  | nil => rfl
  | cons t ts ih => simp [List.flatMap_cons, ih]

/-- Properties of any generated (coordinates, types) pair: the two sequences
are aligned and every label is canonical. -/
theorem haar_like_feature_coord_props {w h : Nat} {arg : FeatureTypeArg}
    {coords : List Feature} {types : List String}
    (hgen : haar_like_feature_coord w h arg = .ok (coords, types)) :
    coords.length = types.length ∧ ∀ t ∈ types, t ∈ FEATURE_TYPE := by
  rw [haar_like_feature_coord] at hgen
  cases hval : validate_feature_type arg with
  | error e => rw [hval] at hgen; exact absurd hgen (by simp)
  | ok ts0 =>
    rw [hval] at hgen
    have hpair := Except.ok.inj hgen
    have hc : coords = ts0.flatMap (coordsOfType w h) :=
      (congrArg Prod.fst hpair).symm
    have ht : types = ts0.flatMap fun t => (coordsOfType w h t).map fun _ => t :=
      (congrArg Prod.snd hpair).symm
    constructor
    · rw [hc, ht]
      exact flatMap_label_length w h ts0
    · intro t htm
      rw [ht] at htm
      obtain ⟨u, hu, hmem⟩ := List.mem_flatMap.1 htm
      obtain ⟨_, _, rfl⟩ := List.mem_map.1 hmem
      exact validate_ok_subset hval u hu

/-- Application of an index sequence: entry j of the result is entry p[j] of
the input (used to state reordering; with p a permutation of the positions
this is exactly applying the permutation). -/
def permuteBy {α : Type _} [Inhabited α] (p : List Nat) (l : List α) :
    List α :=
  p.map fun i => l.getD i default

/-- C4: partial evaluation applied to a permutation of a previously
generated (coordinates, types) pair returns the permutation applied to the
result of evaluating the unpermuted pair — results come back in the caller's
input order. -/
theorem C4_subset_commutes_with_permutation
    (ii : IntegralImage) (r c w h : Nat) (arg : FeatureTypeArg)
    (coords : List Feature) (types : List String)
    (hgen : haar_like_feature_coord w h arg = .ok (coords, types))
    (p : List Nat) (hp : p.Perm (List.range coords.length)) :
    haar_like_feature_subset ii r c w h (permuteBy p coords)
        (permuteBy p types)
      = Except.map (permuteBy p)
          (haar_like_feature_subset ii r c w h coords types) := by
  obtain ⟨hlen, hval⟩ := haar_like_feature_coord_props hgen
  have hplen : (permuteBy p coords).length = (permuteBy p types).length := by
    simp [permuteBy]
  have hpmem : ∀ i ∈ p, i < coords.length := fun i hi =>
    List.mem_range.1 (hp.mem_iff.1 hi)
  unfold haar_like_feature_subset
  rw [if_neg (show ¬(permuteBy p coords).length ≠ (permuteBy p types).length
    from fun hc => hc hplen)]
  rw [if_neg (show ¬coords.length ≠ types.length from fun hc => hc hlen)]
  by_cases hfit : windowFits ii r c w h
  · rw [if_pos hfit, if_pos hfit]
    by_cases hne : coords = []
    · subst hne
      have hp0 : p = [] := by
        exact List.length_eq_zero.1 (by simpa using hp.length_eq)
      have ht0 : types = [] := List.length_eq_zero.1 (by rw [← hlen]; rfl)
      subst hp0
      subst ht0
      rfl
    · have hne' : permuteBy p coords ≠ [] := by
        intro h0
        apply hne
        have hp0 : p = [] := by
          simpa [permuteBy] using congrArg List.length h0
        rw [hp0] at hp
        have h1 := hp.length_eq
        simp at h1
        exact List.length_eq_zero.1 h1.symm
      have hvset : ∀ t ∈ permuteBy p types, t ∈ FEATURE_TYPE := by
        intro t ht
        obtain ⟨i, hi, rfl⟩ := List.mem_map.1 ht
        have hilt : i < types.length := by
          rw [← hlen]
          exact hpmem i hi
        rw [List.getD_eq_getElem types default hilt]
        exact hval _ (List.getElem_mem hilt)
      rw [subsetCore_ok ii r c (permuteBy p coords) (permuteBy p types)
        hplen hvset hne']
      rw [subsetCore_ok ii r c coords types hlen hval hne]
      show Except.ok _ = Except.ok _
      refine congrArg Except.ok ?_
      apply List.ext_getElem
      · simp [permuteBy]
      · intro j h1 h2
        have hjp : j < p.length := by
          simpa [permuteBy] using h1
        have hpj : p[j] < coords.length :=
          hpmem _ (List.getElem_mem hjp)
        have hL : ((List.range coords.length).map fun q =>
            featureValue ii r c (coords.getD q default)).getD
              (p[j]) default
            = featureValue ii r c (coords.getD (p[j]) default) := by
          rw [List.getD_eq_getElem _ default (by simpa using hpj),
            List.getElem_map, List.getElem_range]
        have hgd : (permuteBy p coords).getD j default =
            coords.getD (p[j]) default := by
          simp only [permuteBy]
          rw [List.getD_eq_getElem _ default (by simpa using hjp),
            List.getElem_map]
        rw [List.getElem_map, List.getElem_range, hgd]
        simp only [permuteBy]
        rw [List.getElem_map, hL]
  · rw [if_neg hfit, if_neg hfit]
    rfl

/-- Witness for C4: the two type-2-x features of a 2 × 2 window, swapped. -/
theorem C4_subset_commutes_with_permutation_witness :
    haar_like_feature_subset onesII 0 0 2 2
        (permuteBy [1, 0]
          [[⟨0, 0, 0, 0⟩, ⟨0, 1, 0, 1⟩], [⟨1, 0, 1, 0⟩, ⟨1, 1, 1, 1⟩]])
        (permuteBy [1, 0] ["type-2-x", "type-2-x"])
      = Except.map (permuteBy [1, 0])
          (haar_like_feature_subset onesII 0 0 2 2
            [[⟨0, 0, 0, 0⟩, ⟨0, 1, 0, 1⟩], [⟨1, 0, 1, 0⟩, ⟨1, 1, 1, 1⟩]]
            ["type-2-x", "type-2-x"]) :=
  C4_subset_commutes_with_permutation onesII 0 0 2 2 (.single "type-2-x")
    [[⟨0, 0, 0, 0⟩, ⟨0, 1, 0, 1⟩], [⟨1, 0, 1, 0⟩, ⟨1, 1, 1, 1⟩]]
    ["type-2-x", "type-2-x"] (by rfl) [1, 0] (by decide)

/-! ### Full recompute versus subset recompute (claim C5) -/

/-- C5 counterexample: the claimed equality fails on a degenerate window.
For a 1 × 1 window the generator yields no features at all and neither mode
evaluates anything: full mode fails concatenating the empty value list (the
ValueError of np.hstack over the empty chained list, src lines 194-197)
while subset mode fails unpacking the empty zip (src lines 204-209) — two
different failures, and no element-for-element equal result. -/
theorem C5_full_vs_subset_cex :
    haar_like_feature_full onesII 0 0 1 1 .unspecified =
      .error .emptyConcat ∧
    ((haar_like_feature_coord 1 1 .unspecified).bind fun pr =>
        haar_like_feature_subset onesII 0 0 1 1 pr.1 pr.2)
      = .error .emptyUnpack ∧
    haar_like_feature_full onesII 0 0 1 1 .unspecified ≠
      ((haar_like_feature_coord 1 1 .unspecified).bind fun pr =>
        haar_like_feature_subset onesII 0 0 1 1 pr.1 pr.2) := by
  refine ⟨rfl, rfl, fun hcontra => ?_⟩
  rw [show haar_like_feature_full onesII 0 0 1 1 .unspecified =
      .error .emptyConcat from rfl] at hcontra
  rw [show ((haar_like_feature_coord 1 1 .unspecified).bind fun pr =>
      haar_like_feature_subset onesII 0 0 1 1 pr.1 pr.2)
      = .error .emptyUnpack from rfl] at hcontra
  exact absurd (Except.error.inj hcontra) (by decide)

/-- C5 amended: for every integral image, offset and window with width and
height at least 2 (equivalently: whenever the generator output is
non-empty), full-recompute evaluation over all 5 topologies equals partial
evaluation applied to the full output of the coordinate generator, element
for element. -/
theorem C5_full_eq_subset (ii : IntegralImage) (r c w h : Nat)
    (hw : 2 ≤ w) (hh : 2 ≤ h) :
    haar_like_feature_full ii r c w h .unspecified =
      (haar_like_feature_coord w h .unspecified).bind fun pr =>
        haar_like_feature_subset ii r c w h pr.1 pr.2 := by
  have hgen : haar_like_feature_coord w h .unspecified
      = .ok (FEATURE_TYPE.flatMap (coordsOfType w h),
             FEATURE_TYPE.flatMap fun t =>
               (coordsOfType w h t).map fun _ => t) := rfl
  rw [hgen]
  show haar_like_feature_full ii r c w h .unspecified =
    haar_like_feature_subset ii r c w h
      (FEATURE_TYPE.flatMap (coordsOfType w h))
      (FEATURE_TYPE.flatMap fun t => (coordsOfType w h t).map fun _ => t)
  have hlen := flatMap_label_length w h FEATURE_TYPE
  have hvalid : ∀ t ∈ FEATURE_TYPE.flatMap fun t =>
      (coordsOfType w h t).map fun _ => t, t ∈ FEATURE_TYPE := by
    intro t ht
    obtain ⟨u, hu, hmem⟩ := List.mem_flatMap.1 ht
    obtain ⟨_, _, rfl⟩ := List.mem_map.1 hmem
    exact hu
  unfold haar_like_feature_full haar_like_feature_subset
  show (if windowFits ii r c w h then _ else _) = _
  rw [if_neg (show ¬(FEATURE_TYPE.flatMap (coordsOfType w h)).length ≠ _
    from fun hc => hc hlen)]
  by_cases hfit : windowFits ii r c w h
  · have hne : FEATURE_TYPE.flatMap (coordsOfType w h) ≠ [] := by
      intro h0
      have hm : ([⟨0, 0, 0, 0⟩, ⟨0, 1, 0, 1⟩] : Feature) ∈
          coordsOfType w h "type-2-x" := by
        refine mem_coords_type2x.2 ⟨0, 0, 1, 1, le_refl 1, hh, le_refl 1, hw,
          by omega, by omega, ?_⟩
        rfl
      have : ([⟨0, 0, 0, 0⟩, ⟨0, 1, 0, 1⟩] : Feature) ∈
          FEATURE_TYPE.flatMap (coordsOfType w h) :=
        List.mem_flatMap.2 ⟨"type-2-x", by decide, hm⟩
      rw [h0] at this
      exact absurd this (List.not_mem_nil _)
    have hvalsne : ¬((FEATURE_TYPE.flatMap fun t =>
        (coordsOfType w h t).map (featureValue ii r c)).isEmpty = true) := by
      intro h0
      apply hne
      have h1 := List.isEmpty_iff.1 h0
      rw [← List.map_flatMap] at h1
      exact List.map_eq_nil.1 h1
    rw [if_pos hfit]
    rw [if_neg hvalsne]
    rw [if_pos hfit]
    rw [subsetCore_ok ii r c _ _ hlen hvalid hne]
    rw [map_getD_range (featureValue ii r c)
      (FEATURE_TYPE.flatMap (coordsOfType w h))]
    rw [List.map_flatMap]
  · rw [if_neg hfit, if_neg hfit]

/-- Witness for the amended C5 at a 2 × 2 window over the ones image. -/
theorem C5_full_eq_subset_witness :
    haar_like_feature_full onesII 0 0 2 2 .unspecified =
      (haar_like_feature_coord 2 2 .unspecified).bind fun pr =>
        haar_like_feature_subset onesII 0 0 2 2 pr.1 pr.2 :=
  C5_full_eq_subset onesII 0 0 2 2 (by decide) (by decide)

/-! ### Unrecognized labels in subset mode (claim C10) -/

/-- C10 counterexample: the unrecognized label "type-5" does not raise
InvalidTopology, and its entry is dropped from the partition — but the
exclusion is not silent here: with the bad label in front, a recognized
entry keeps original position 2 while only 2 entries are recognized, so the
scatter writes out of bounds and the call fails with an index error instead
of returning the recognized entries' values. -/
theorem C10_unknown_label_cex :
    haar_like_feature_subset onesII 0 0 2 2
        [[], [⟨0, 0, 0, 0⟩, ⟨0, 1, 0, 1⟩], [⟨1, 0, 1, 0⟩, ⟨1, 1, 1, 1⟩]]
        ["type-5", "type-2-x", "type-2-x"]
      = .error .indexOutOfBounds := by
  rfl

/-- C10 amended: subset-mode type labels are never validated against the
registry — no input ever produces an InvalidTopology error — and entries
with unrecognized labels are excluded from the per-type partition: when the
recognized entries form an initial block of the input, the output is built
from exactly those entries' values; a recognized entry whose original
position reaches past the number of recognized entries instead makes the
scatter fail with an index error. -/
theorem C10_unknown_labels_skipped :
    (∀ (ii : IntegralImage) (r c w h : Nat) (coords : List Feature)
      (types : List String) (u : String) (vs : List String),
        haar_like_feature_subset ii r c w h coords types ≠
          .error (.invalidTopology u vs)) ∧
    (∀ (ii : IntegralImage) (r c w h : Nat) (cA cB : List Feature)
      (tA tB : List String),
        cA.length = tA.length → cB.length = tB.length →
        (∀ t ∈ tA, t ∈ FEATURE_TYPE) → (∀ t ∈ tB, t ∉ FEATURE_TYPE) →
        cA ≠ [] → windowFits ii r c w h →
        haar_like_feature_subset ii r c w h (cA ++ cB) (tA ++ tB) =
          .ok ((List.range cA.length).map fun q =>
            featureValue ii r c (cA.getD q default))) := by
  constructor
  · intro ii r c w h coords types u vs
    unfold haar_like_feature_subset subsetCore
    split
    · simp
    · split
      · split
        · simp
        · split <;> simp
      · simp
  · intro ii r c w h cA cB tA tB hlenA hlenB hvA hvB hne hfit
    unfold haar_like_feature_subset
    rw [if_neg (show ¬(cA ++ cB).length ≠ (tA ++ tB).length from by
      simp [hlenA, hlenB])]
    rw [if_pos hfit]
    exact subsetCore_split ii r c cA cB tA tB hlenA hlenB hvA hvB hne

/-- Witness for the amended C10: one recognized entry followed by one entry
labelled "type-5"; the call returns exactly the recognized entry's value. -/
theorem C10_unknown_labels_skipped_witness :
    haar_like_feature_subset onesII 0 0 2 2
        ([[⟨0, 0, 0, 0⟩, ⟨0, 1, 0, 1⟩]] ++ [[]])
        (["type-2-x"] ++ ["type-5"])
      = .ok ((List.range (List.length
          ([[⟨0, 0, 0, 0⟩, ⟨0, 1, 0, 1⟩]] : List Feature))).map fun q =>
        featureValue onesII 0 0
          (([[⟨0, 0, 0, 0⟩, ⟨0, 1, 0, 1⟩]] : List Feature).getD q default)) :=
  C10_unknown_labels_skipped.2 onesII 0 0 2 2
    [[⟨0, 0, 0, 0⟩, ⟨0, 1, 0, 1⟩]] [[]] ["type-2-x"] ["type-5"]
    rfl rfl (by decide) (by decide) (by decide) (by decide)

/-! ### Conformance with the doctest vectors of src/skimage/feature/haar.py -/

/-- The model reproduces, value for value, the 42-entry doctest output of
haar_like_feature(img_ii, 0, 0, 5, 5, 'type-3-x') on the integral image of a
5 × 5 image of ones (src/skimage/feature/haar.py lines 149-155). -/
theorem doctest_type3x_values :
    haar_like_feature_full onesII 0 0 5 5 (.single "type-3-x") =
      .ok [-1, -2, -3, -4, -1, -2, -3, -4, -1, -2, -3, -4, -1, -2, -3, -4,
           -1, -2, -3, -4, -1, -2, -3, -4, -1, -2, -3, -1, -2, -3, -1, -2,
           -3, -1, -2, -1, -2, -1, -2, -1, -1, -1] := by
  rfl

/-- The model reproduces, value for value, the 63-entry doctest output of
the subset call on every other type-2-x and type-3-x feature
(src/skimage/feature/haar.py lines 157-173). -/
theorem doctest_subset_values :
    haar_like_feature_subset onesII 0 0 5 5
        (everyOther (coordsOfType 5 5 "type-2-x")
          ++ everyOther (coordsOfType 5 5 "type-3-x"))
        ((everyOther (coordsOfType 5 5 "type-2-x")).map (fun _ => "type-2-x")
          ++ (everyOther (coordsOfType 5 5 "type-3-x")).map
            fun _ => "type-3-x")
      = .ok [0, 0, 0, 0, 0, 0, 0, 0, 0, 0, 0, 0, 0, 0, 0, 0, 0, 0, 0, 0, 0,
             0, 0, 0, 0, 0, 0, 0, 0, 0, 0, 0, 0, 0, 0, 0, 0, 0, 0, 0, 0, 0,
             -1, -3, -1, -3, -1, -3, -1, -3, -1, -3, -1, -3, -1, -3, -2, -1,
             -3, -2, -2, -2, -1] := by
  rfl
